import Mathlib

/-!
Verification of `tower/src/util/oneshot.rs`: the `Oneshot` future, a
three-state machine (`NotReady`, `Called`, `Done`) that waits for a
service to become ready, calls it once with a stored request, and then
drives the resulting response future to completion.

The Rust service trait is modelled by `Oneshot.Capability`: a readiness
poll (`poll_ready`, mutating the service state), a `call` that consumes
the request and produces a response-future value, and a poll operation
on that future (`pollFuture`, mutating the future state).  `Oneshot.poll`
is a direct transcription of `<Oneshot as Future>::poll`, including the
early returns performed by the `?` operator (which do NOT change the
state field) and the two panics (`expect("already called")` and
`panic!("polled after complete")`).  Each poll additionally records the
list of observable events (readiness poll results, service invocation,
future polls) so that ordering and at-most-once properties can be stated.
-/

deriving instance DecidableEq for Except

namespace Oneshot

/-- `std::task::Poll`. -/
inductive Poll (α : Type) : Type where
  | pending : Poll α
  | ready : α → Poll α
deriving DecidableEq

/-- The external service (`S: Service<Req>`): readiness check over a
service state `σ`, a `call` consuming the request and yielding a
response-future value `φ`, and the poll function of that future.
State threading stands in for Rust's `&mut self`. -/
structure Capability (σ φ Req Resp Err : Type) : Type where
  poll_ready : σ → Poll (Except Err Unit) × σ
  call : σ → Req → φ
  pollFuture : φ → Poll (Except Err Resp) × φ

/-- `enum State<S, Req> { NotReady(S, Option<Req>), Called(S::Future), Done }`. -/
inductive State (σ φ Req : Type) : Type where
  | NotReady : σ → Option Req → State σ φ Req
  | Called : φ → State σ φ Req
  | Done : State σ φ Req
deriving DecidableEq

/-- Outcome of one `poll` call: `Poll::Pending`, `Poll::Ready(result)`,
or a panic with the source's panic message. -/
inductive PollOutcome (Resp Err : Type) : Type where
  | pending : PollOutcome Resp Err
  | ready : Except Err Resp → PollOutcome Resp Err
  | panicked : String → PollOutcome Resp Err
deriving DecidableEq

/-- Observable events of a single `poll` call, in order. -/
inductive Ev : Type where
  | pollReadyPending : Ev
  | pollReadyOk : Ev
  | pollReadyErr : Ev
  | callInvoked : Ev
  | futPolled : Ev
deriving DecidableEq

/-- Result of one `poll` call: the returned value, the state left behind,
and the events that occurred, in order. -/
structure PollRes (σ φ Req Resp Err : Type) : Type where
  out : PollOutcome Resp Err
  st : State σ φ Req
  evs : List Ev
deriving DecidableEq

/-- `Oneshot::new(svc, req)`: state `NotReady(svc, Some(req))`. -/
def new {σ φ Req : Type} (svc : σ) (req : Req) : State σ φ Req :=
  State.NotReady svc (some req)

/-- The `State::Called` arm of the poll loop: poll the response future.
On `Ready(Ok(res))` the state is set to `Done`; on `Ready(Err(e))` the
`?` operator returns early and the state stays `Called` (with the future
as the poll left it); on `Pending` the state stays `Called`. -/
def pollCalled {σ φ Req Resp Err : Type} (C : Capability σ φ Req Resp Err) (fut : φ) :
    PollRes σ φ Req Resp Err :=
  match C.pollFuture fut with
  | (Poll.pending, fut') =>
      ⟨PollOutcome.pending, State.Called fut', [Ev.futPolled]⟩
  | (Poll.ready (Except.ok res), _) =>
      ⟨PollOutcome.ready (Except.ok res), State.Done, [Ev.futPolled]⟩
  | (Poll.ready (Except.error e), fut') =>
      ⟨PollOutcome.ready (Except.error e), State.Called fut', [Ev.futPolled]⟩

/-- `<Oneshot as Future>::poll`.  The source's `loop` runs the
`NotReady` arm and, after a successful readiness poll and `call`, falls
through to the `Called` arm within the same invocation (`pollCalled`).
In the `NotReady` arm, `ready!` (on `Pending`) and `?` (on `Ready(Err)`)
return early without touching the state field. -/
def poll {σ φ Req Resp Err : Type} (C : Capability σ φ Req Resp Err) :
    State σ φ Req → PollRes σ φ Req Resp Err
  | State.NotReady svc req =>
    match C.poll_ready svc with
    | (Poll.pending, svc') =>
        ⟨PollOutcome.pending, State.NotReady svc' req, [Ev.pollReadyPending]⟩
    | (Poll.ready (Except.error e), svc') =>
        ⟨PollOutcome.ready (Except.error e), State.NotReady svc' req, [Ev.pollReadyErr]⟩
    | (Poll.ready (Except.ok _), svc') =>
      match req with
      | none =>
          ⟨PollOutcome.panicked "already called", State.NotReady svc' none, [Ev.pollReadyOk]⟩
      | some r =>
        let res := pollCalled C (C.call svc' r)
        ⟨res.out, res.st, Ev.pollReadyOk :: Ev.callInvoked :: res.evs⟩
  | State.Called fut => pollCalled C fut
  | State.Done => ⟨PollOutcome.panicked "polled after complete", State.Done, []⟩

/-- Whether a poll outcome is a panic. -/
def isPanic {Resp Err : Type} : PollOutcome Resp Err → Bool
  | PollOutcome.panicked _ => true
  | _ => false

/-- Whether a poll outcome is the `expect("already called")` panic. -/
def isAlreadyCalled {Resp Err : Type} : PollOutcome Resp Err → Bool
  | PollOutcome.panicked msg => msg == "already called"
  | _ => false

/-- Whether the state is `Done`. -/
def isDone {σ φ Req : Type} : State σ φ Req → Bool
  | State.Done => true
  | _ => false

/-- Result of a sequence of `poll` calls: final state, the outcomes in
order, and the concatenated event trace. -/
structure RunRes (σ φ Req Resp Err : Type) : Type where
  st : State σ φ Req
  outs : List (PollOutcome Resp Err)
  evs : List Ev
deriving DecidableEq

/-- Run `n` successive `poll` calls.  A panic aborts the run: no further
polls happen after it. -/
def runPolls {σ φ Req Resp Err : Type} (C : Capability σ φ Req Resp Err) :
    Nat → State σ φ Req → RunRes σ φ Req Resp Err
  | 0, st => ⟨st, [], []⟩
  | Nat.succ n, st =>
    let p := poll C st
    if isPanic p.out then ⟨p.st, [p.out], p.evs⟩
    else
      let rest := runPolls C n p.st
      ⟨rest.st, p.out :: rest.outs, p.evs ++ rest.evs⟩

/-- The service reports `NotReady` on `n` successive readiness polls,
starting from service state `s` and ending in service state `sF`. -/
def pendsFor {σ φ Req Resp Err : Type} (C : Capability σ φ Req Resp Err) :
    σ → Nat → σ → Prop
  | s, 0, sF => s = sF
  | s, Nat.succ n, sF =>
      (C.poll_ready s).1 = Poll.pending ∧ pendsFor C (C.poll_ready s).2 n sF

/-- The response future, starting from value `f`, reports `Pending` on
`k` successive polls and then resolves to `res` on the next one. -/
def futResolves {σ φ Req Resp Err : Type} (C : Capability σ φ Req Resp Err) :
    φ → Nat → Except Err Resp → Prop
  | f, 0, res => (C.pollFuture f).1 = Poll.ready res
  | f, Nat.succ k, res =>
      (C.pollFuture f).1 = Poll.pending ∧ futResolves C (C.pollFuture f).2 k res

/-- Invariant: in the `NotReady` state the request slot is full. -/
def reqSlotInvB {σ φ Req : Type} : State σ φ Req → Bool
  | State.NotReady _ req => req.isSome
  | _ => true

/-- Whether the service has already been called (state left `NotReady`). -/
def calledOf {σ φ Req : Type} : State σ φ Req → Bool
  | State.NotReady _ _ => false
  | _ => true

/-- Automaton state for checking an event trace: whether `call` has
already happened, and whether the immediately preceding event was a
successful readiness poll. -/
structure AutoSt : Type where
  called : Bool
  lastReadyOk : Bool
deriving DecidableEq

/-- One automaton step.  `callInvoked` is legal only immediately after a
successful readiness poll and only if `call` has not happened before;
`futPolled` is legal only after `call` has happened. -/
def stepAuto : AutoSt → Ev → Option AutoSt
  | a, Ev.pollReadyPending => some ⟨a.called, false⟩
  | a, Ev.pollReadyOk => some ⟨a.called, true⟩
  | a, Ev.pollReadyErr => some ⟨a.called, false⟩
  | a, Ev.callInvoked =>
      if !a.called && a.lastReadyOk then some ⟨true, false⟩ else none
  | a, Ev.futPolled =>
      if a.called then some ⟨a.called, false⟩ else none

/-- Run the trace automaton; `none` means the trace violates the
ordering/at-most-once discipline. -/
def runAuto : AutoSt → List Ev → Option AutoSt
  | a, [] => some a
  | a, e :: rest =>
    match stepAuto a e with
    | none => none
    | some a' => runAuto a' rest

/-- A trace is well-ordered when the automaton accepts it from the
initial state (no call yet, no readiness success observed). -/
def traceOK (evs : List Ev) : Bool :=
  (runAuto ⟨false, false⟩ evs).isSome

/-- A capability whose readiness succeeds immediately and whose response
future resolves immediately to `Ok (r + 1)` for request `r`. -/
def okCap : Capability Nat Nat Nat Nat Nat where
  poll_ready := fun s => (Poll.ready (Except.ok ()), s)
  call := fun _ r => r
  pollFuture := fun f => (Poll.ready (Except.ok (f + 1)), f)

/-- A capability whose readiness check fails with error `7`. -/
def errReadyCap : Capability Nat Nat Nat Nat Nat where
  poll_ready := fun s => (Poll.ready (Except.error 7), s)
  call := fun _ r => r
  pollFuture := fun f => (Poll.pending, f)

/-- A capability that is ready immediately but whose response future
resolves to `Err 5`. -/
def errFutCap : Capability Nat Nat Nat Nat Nat where
  poll_ready := fun s => (Poll.ready (Except.ok ()), s)
  call := fun _ r => r
  pollFuture := fun f => (Poll.ready (Except.error 5), f)

/-- A capability whose service state counts down: `NotReady` while the
counter is positive, ready-and-succeeded at zero. -/
def pendCap : Capability Nat Nat Nat Nat Nat where
  poll_ready := fun s =>
    match s with
    | 0 => (Poll.ready (Except.ok ()), 0)
    | Nat.succ m => (Poll.pending, m)
  call := fun _ r => r
  pollFuture := fun f => (Poll.ready (Except.ok f), f)

section Lemmas

variable {σ φ Req Resp Err : Type}

/-- The `Called` arm records exactly one future poll. -/
theorem pollCalled_evs (C : Capability σ φ Req Resp Err) (f : φ) :
    (pollCalled C f).evs = [Ev.futPolled] := by
  rcases hpf : C.pollFuture f with ⟨pf, f'⟩
  cases pf with
  | pending => simp [pollCalled, hpf]
  | ready res => cases res <;> simp [pollCalled, hpf]

/-- The `Called` arm never panics. -/
theorem pollCalled_not_panic (C : Capability σ φ Req Resp Err) (f : φ) :
    isPanic (pollCalled C f).out = false := by
  rcases hpf : C.pollFuture f with ⟨pf, f'⟩
  cases pf with
  | pending => simp [pollCalled, hpf, isPanic]
  | ready res => cases res <;> simp [pollCalled, hpf, isPanic]

/-- The `Called` arm leaves the state in `Called` or `Done`. -/
theorem pollCalled_calledOf (C : Capability σ φ Req Resp Err) (f : φ) :
    calledOf (pollCalled C f).st = true := by
  rcases hpf : C.pollFuture f with ⟨pf, f'⟩
  cases pf with
  | pending => simp [pollCalled, hpf, calledOf]
  | ready res => cases res <;> simp [pollCalled, hpf, calledOf]

/-- Poll in `NotReady` when the service reports not-ready. -/
theorem poll_notReady_pending (C : Capability σ φ Req Resp Err) {s s' : σ}
    (req : Option Req) (h : C.poll_ready s = (Poll.pending, s')) :
    poll C (State.NotReady s req) =
      ⟨PollOutcome.pending, State.NotReady s' req, [Ev.pollReadyPending]⟩ := by
  simp [poll, h]

/-- Poll in `NotReady` when the readiness check fails: the error is
returned unchanged and the state field is not touched (early return by
`?`), so the phase stays `NotReady` and the request slot is unchanged. -/
theorem poll_notReady_err (C : Capability σ φ Req Resp Err) {s s' : σ} {e : Err}
    (req : Option Req) (h : C.poll_ready s = (Poll.ready (Except.error e), s')) :
    poll C (State.NotReady s req) =
      ⟨PollOutcome.ready (Except.error e), State.NotReady s' req, [Ev.pollReadyErr]⟩ := by
  simp [poll, h]

/-- Poll in `NotReady` with a full request slot when readiness succeeds:
the request is taken, the service is called, and the loop falls through
to the `Called` arm in the same poll. -/
theorem poll_notReady_ok_some (C : Capability σ φ Req Resp Err) {s s' : σ}
    (r : Req) (h : C.poll_ready s = (Poll.ready (Except.ok ()), s')) :
    poll C (State.NotReady s (some r)) =
      ⟨(pollCalled C (C.call s' r)).out, (pollCalled C (C.call s' r)).st,
       Ev.pollReadyOk :: Ev.callInvoked :: (pollCalled C (C.call s' r)).evs⟩ := by
  simp [poll, h]

/-- Poll in `NotReady` with an empty request slot when readiness
succeeds: the `expect("already called")` panic fires before `call`. -/
theorem poll_notReady_ok_none (C : Capability σ φ Req Resp Err) {s s' : σ}
    (h : C.poll_ready s = (Poll.ready (Except.ok ()), s')) :
    poll C (State.NotReady s none) =
      ⟨PollOutcome.panicked "already called", State.NotReady s' none, [Ev.pollReadyOk]⟩ := by
  simp [poll, h]

/-- Poll in `Called` is exactly the `Called` arm. -/
theorem poll_called_eq (C : Capability σ φ Req Resp Err) (f : φ) :
    poll C (State.Called f) = pollCalled C f := rfl

/-- Poll in `Done` panics with the source's message. -/
theorem poll_done_eq (C : Capability σ φ Req Resp Err) :
    poll C (State.Done : State σ φ Req) =
      ⟨PollOutcome.panicked "polled after complete", State.Done, []⟩ := rfl

/-- Unfolding `runPolls` when the first poll panics. -/
theorem runPolls_succ_panic (C : Capability σ φ Req Resp Err) (n : Nat)
    (st : State σ φ Req) (hp : isPanic (poll C st).out = true) :
    runPolls C (n + 1) st = ⟨(poll C st).st, [(poll C st).out], (poll C st).evs⟩ := by
  simp [runPolls, hp]

/-- Unfolding `runPolls` when the first poll does not panic. -/
theorem runPolls_succ_ok (C : Capability σ φ Req Resp Err) (n : Nat)
    (st : State σ φ Req) (hp : isPanic (poll C st).out = false) :
    runPolls C (n + 1) st =
      ⟨(runPolls C n (poll C st).st).st,
       (poll C st).out :: (runPolls C n (poll C st).st).outs,
       (poll C st).evs ++ (runPolls C n (poll C st).st).evs⟩ := by
  simp [runPolls, hp]

/-- The trace automaton is compositional over concatenation. -/
theorem runAuto_append (a : AutoSt) (xs ys : List Ev) :
    runAuto a (xs ++ ys) = Option.bind (runAuto a xs) (fun a' => runAuto a' ys) := by
  induction xs generalizing a with
  | nil => rfl
  | cons e rest ih =>
    cases h : stepAuto a e with
    | none => simp [runAuto, h]
    | some a' => simp [runAuto, h, ih]

/-- One poll preserves the request-slot invariant, and its event list is
accepted by the trace automaton, taking the `called` flag from the state
before the poll to the flag of the state after it. -/
theorem poll_step_inv_auto (C : Capability σ φ Req Resp Err) (st : State σ φ Req)
    (h : reqSlotInvB st = true) :
    reqSlotInvB (poll C st).st = true ∧
    runAuto ⟨calledOf st, false⟩ (poll C st).evs =
      some ⟨calledOf (poll C st).st, false⟩ := by
  cases st with
  | NotReady svc req =>
    cases req with
    | none => simp [reqSlotInvB] at h
    | some r =>
      rcases hpr : C.poll_ready svc with ⟨pr, svc'⟩
      cases pr with
      | pending =>
        simp [poll, hpr, reqSlotInvB, calledOf, runAuto, stepAuto]
      | ready res =>
        cases res with
        | error e =>
          simp [poll, hpr, reqSlotInvB, calledOf, runAuto, stepAuto]
        | ok u =>
          rcases hpf : C.pollFuture (C.call svc' r) with ⟨pf, f'⟩
          cases pf with
          | pending =>
            simp [poll, pollCalled, hpr, hpf, reqSlotInvB, calledOf, runAuto, stepAuto]
          | ready res2 =>
            cases res2 <;>
              simp [poll, pollCalled, hpr, hpf, reqSlotInvB, calledOf, runAuto, stepAuto]
  | Called fut =>
    rcases hpf : C.pollFuture fut with ⟨pf, f'⟩
    cases pf with
    | pending => simp [poll, pollCalled, hpf, reqSlotInvB, calledOf, runAuto, stepAuto]
    | ready res => cases res <;> simp [poll, pollCalled, hpf, reqSlotInvB, calledOf, runAuto, stepAuto]
  | Done => simp [poll, reqSlotInvB, calledOf, runAuto]

/-- Any run of polls preserves the request-slot invariant, and its whole
event trace is accepted by the automaton. -/
theorem runPolls_inv_auto (C : Capability σ φ Req Resp Err) (n : Nat)
    (st : State σ φ Req) (h : reqSlotInvB st = true) :
    reqSlotInvB (runPolls C n st).st = true ∧
    runAuto ⟨calledOf st, false⟩ (runPolls C n st).evs =
      some ⟨calledOf (runPolls C n st).st, false⟩ := by
  induction n generalizing st with
  | zero => simpa [runPolls, runAuto] using h
  | succ m ih =>
    obtain ⟨h1, h2⟩ := poll_step_inv_auto C st h
    by_cases hp : isPanic (poll C st).out = true
    · rw [runPolls_succ_panic C m st hp]
      exact ⟨h1, h2⟩
    · rw [runPolls_succ_ok C m st (by simpa using hp)]
      obtain ⟨ih1, ih2⟩ := ih (poll C st).st h1
      refine ⟨ih1, ?_⟩
      rw [runAuto_append, h2]
      simpa using ih2

/-- While the service keeps reporting not-ready, each poll returns
`Pending`, the phase stays `NotReady`, and the request slot is untouched;
afterwards the run continues from `NotReady sF req`. -/
theorem runPolls_pendsFor (C : Capability σ φ Req Resp Err) {s sF : σ} {n : Nat}
    (hp : pendsFor C s n sF) (k : Nat) (req : Option Req) :
    runPolls C (n + k) (State.NotReady s req) =
      ⟨(runPolls C k (State.NotReady sF req)).st,
       List.replicate n PollOutcome.pending ++ (runPolls C k (State.NotReady sF req)).outs,
       List.replicate n Ev.pollReadyPending ++ (runPolls C k (State.NotReady sF req)).evs⟩ := by
  induction n generalizing s with
  | zero =>
    simp only [pendsFor] at hp
    subst hp
    simp
  | succ m ih =>
    simp only [pendsFor] at hp
    obtain ⟨h1, h2⟩ := hp
    rcases hpr : C.poll_ready s with ⟨pr, s1⟩
    rw [hpr] at h1 h2
    simp only at h1 h2
    subst h1
    have hpoll := poll_notReady_pending C req hpr
    have hs : Nat.succ m + k = (m + k) + 1 := by omega
    rw [hs, runPolls_succ_ok C (m + k) (State.NotReady s req) (by simp [hpoll, isPanic])]
    rw [hpoll]
    simp only
    rw [ih h2]
    simp [List.replicate_succ]

/-- While the response future keeps reporting pending, each poll returns
`Pending` and the phase stays `Called`; when it resolves to `Ok v` the
state becomes `Done` and `Ready(Ok v)` is returned. -/
theorem runPolls_futResolves_ok (C : Capability σ φ Req Resp Err) {f : φ} {k : Nat}
    {v : Resp} (h : futResolves C f k (Except.ok v)) :
    runPolls C (k + 1) (State.Called f) =
      ⟨State.Done,
       List.replicate k PollOutcome.pending ++ [PollOutcome.ready (Except.ok v)],
       List.replicate (k + 1) Ev.futPolled⟩ := by
  induction k generalizing f with
  | zero =>
    simp only [futResolves] at h
    rcases hpf : C.pollFuture f with ⟨pf, f'⟩
    rw [hpf] at h
    simp only at h
    subst h
    have hpoll : poll C (State.Called f) =
        ⟨PollOutcome.ready (Except.ok v), State.Done, [Ev.futPolled]⟩ := by
      simp [poll, pollCalled, hpf]
    rw [show (0 : Nat) + 1 = 0 + 1 from rfl, runPolls_succ_ok C 0 (State.Called f) (by simp [hpoll, isPanic])]
    rw [hpoll]
    simp [runPolls]
  | succ m ih =>
    simp only [futResolves] at h
    obtain ⟨h1, h2⟩ := h
    rcases hpf : C.pollFuture f with ⟨pf, f'⟩
    rw [hpf] at h1 h2
    simp only at h1 h2
    subst h1
    have hpoll : poll C (State.Called f) =
        ⟨PollOutcome.pending, State.Called f', [Ev.futPolled]⟩ := by
      simp [poll, pollCalled, hpf]
    rw [show Nat.succ m + 1 = (m + 1) + 1 from rfl,
        runPolls_succ_ok C (m + 1) (State.Called f) (by simp [hpoll, isPanic])]
    rw [hpoll]
    simp only
    rw [ih h2]
    simp [List.replicate_succ]

/-- `callInvoked` does not occur among replicated `futPolled` events. -/
theorem count_callInvoked_replicate_futPolled (n : Nat) :
    List.count Ev.callInvoked (List.replicate n Ev.futPolled) = 0 := by
  simp [List.count_replicate]

/-- `callInvoked` does not occur among replicated `pollReadyPending` events. -/
theorem count_callInvoked_replicate_pending (n : Nat) :
    List.count Ev.callInvoked (List.replicate n Ev.pollReadyPending) = 0 := by
  simp [List.count_replicate]

/-- The `Called` arm never produces the `expect("already called")` panic. -/
theorem pollCalled_not_alreadyCalled (C : Capability σ φ Req Resp Err) (f : φ) :
    isAlreadyCalled (pollCalled C f).out = false := by
  rcases hpf : C.pollFuture f with ⟨pf, f'⟩
  cases pf with
  | pending => simp [pollCalled, hpf, isAlreadyCalled]
  | ready res => cases res <;> simp [pollCalled, hpf, isAlreadyCalled]

/-- From any state satisfying the request-slot invariant, a poll never
produces the `expect("already called")` panic. -/
theorem poll_no_already_called (C : Capability σ φ Req Resp Err) (st : State σ φ Req)
    (h : reqSlotInvB st = true) :
    isAlreadyCalled (poll C st).out = false := by
  cases st with
  | NotReady svc req =>
    cases req with
    | none => simp [reqSlotInvB] at h
    | some r =>
      rcases hpr : C.poll_ready svc with ⟨pr, svc'⟩
      cases pr with
      | pending => simp [poll, hpr, isAlreadyCalled]
      | ready res =>
        cases res with
        | error e => simp [poll, hpr, isAlreadyCalled]
        | ok u =>
          rw [poll_notReady_ok_some C r hpr]
          exact pollCalled_not_alreadyCalled C _
  | Called fut => exact pollCalled_not_alreadyCalled C fut
  | Done => simp [poll, isAlreadyCalled]

end Lemmas

section Claims

variable {σ φ Req Resp Err : Type}

/-- C1: for every service whose readiness check succeeds immediately and
whose call future resolves (after `k` pending polls) to `Ok v`, driving
the `Oneshot` built from it and any request `r` yields `k` `Pending`
results followed by `Ready(Ok v)` — exactly the value the call future
produced — and the service's `call` is invoked exactly once over the run. -/
theorem claim1_immediate_ready_success (C : Capability σ φ Req Resp Err) (s s' : σ)
    (r : Req) (k : Nat) (v : Resp)
    (h1 : C.poll_ready s = (Poll.ready (Except.ok ()), s'))
    (h2 : futResolves C (C.call s' r) k (Except.ok v)) :
    (runPolls C (k + 1) (new s r)).outs =
      List.replicate k PollOutcome.pending ++ [PollOutcome.ready (Except.ok v)] ∧
    List.count Ev.callInvoked (runPolls C (k + 1) (new s r)).evs = 1 := by
  cases k with
  | zero =>
    simp only [futResolves] at h2
    rcases hpf : C.pollFuture (C.call s' r) with ⟨pf, f'⟩
    rw [hpf] at h2
    simp only at h2
    subst h2
    have hpc : pollCalled C (C.call s' r) =
        ⟨PollOutcome.ready (Except.ok v), State.Done, [Ev.futPolled]⟩ := by
      simp [pollCalled, hpf]
    have hpoll := poll_notReady_ok_some C r h1
    rw [hpc] at hpoll
    rw [show (new s r : State σ φ Req) = State.NotReady s (some r) from rfl]
    rw [runPolls_succ_ok C 0 (State.NotReady s (some r)) (by simp [hpoll, isPanic])]
    rw [hpoll]
    constructor
    · simp [runPolls]
    · simp only [runPolls]
      decide
  | succ m =>
    simp only [futResolves] at h2
    obtain ⟨ha, hb⟩ := h2
    rcases hpf : C.pollFuture (C.call s' r) with ⟨pf, f'⟩
    rw [hpf] at ha hb
    simp only at ha hb
    subst ha
    have hpc : pollCalled C (C.call s' r) =
        ⟨PollOutcome.pending, State.Called f', [Ev.futPolled]⟩ := by
      simp [pollCalled, hpf]
    have hpoll := poll_notReady_ok_some C r h1
    rw [hpc] at hpoll
    rw [show (new s r : State σ φ Req) = State.NotReady s (some r) from rfl]
    rw [show Nat.succ m + 1 = (m + 1) + 1 from rfl,
        runPolls_succ_ok C (m + 1) (State.NotReady s (some r)) (by simp [hpoll, isPanic])]
    rw [hpoll]
    simp only
    rw [runPolls_futResolves_ok C hb]
    constructor
    · simp [List.replicate_succ]
    · simp [List.count_cons, List.count_append, count_callInvoked_replicate_futPolled]

/-- C1 witness: `okCap` is ready immediately and its call future for
request `3` resolves immediately to `Ok 4`; one poll yields `Ready(Ok 4)`
with exactly one `call` invocation. -/
theorem claim1_witness :
    (runPolls okCap 1 (new 0 3)).outs = [PollOutcome.ready (Except.ok 4)] ∧
    List.count Ev.callInvoked (runPolls okCap 1 (new 0 3)).evs = 1 :=
  claim1_immediate_ready_success okCap 0 0 3 0 4 rfl rfl

/-- C2: over any number of polls of a `Oneshot` built by `new`, the event
trace is accepted by the ordering automaton: `call` happens at most once,
only immediately after a successful readiness poll, and the call future
is only polled after `call` has been invoked. -/
theorem claim2_call_ordering (C : Capability σ φ Req Resp Err) (s : σ) (r : Req) (n : Nat) :
    traceOK (runPolls C n (new s r)).evs = true := by
  have h := (runPolls_inv_auto C n (new s r) (by simp [new, reqSlotInvB])).2
  simp only [new, calledOf] at h
  simp [traceOK, new, h]

/-- C3 counterexample: with a service whose readiness check fails with
error `7`, the poll returns `Ready(Err 7)` but the state is NOT `Done`
(the `?` early return leaves the state field untouched), contradicting
the claimed transition to the Completed phase. -/
theorem claim3_counterexample :
    (poll errReadyCap (new 0 5)).out = PollOutcome.ready (Except.error 7) ∧
    isDone (poll errReadyCap (new 0 5)).st = false :=
  ⟨rfl, rfl⟩

/-- C3 (amended): whenever a poll in the `NotReady` phase observes the
readiness check return an error, that poll returns `Ready(Err(error))`
with the error unmodified, but the `Oneshot` remains in the `NotReady`
phase with the service state advanced and the request slot unchanged —
it does not transition to `Done`. -/
theorem claim3_amended_err_stays_notReady (C : Capability σ φ Req Resp Err)
    {s s' : σ} {e : Err} (req : Option Req)
    (h : C.poll_ready s = (Poll.ready (Except.error e), s')) :
    poll C (State.NotReady s req) =
      ⟨PollOutcome.ready (Except.error e), State.NotReady s' req, [Ev.pollReadyErr]⟩ :=
  poll_notReady_err C req h

/-- C3 witness: the amended statement at `errReadyCap` with request `5`. -/
theorem claim3_witness :
    poll errReadyCap (State.NotReady 0 (some 5)) =
      ⟨PollOutcome.ready (Except.error 7), State.NotReady 0 (some 5), [Ev.pollReadyErr]⟩ :=
  claim3_amended_err_stays_notReady errReadyCap (some 5) rfl

/-- C4 counterexample: with a call future that resolves to `Err 5`, the
poll in the `Called` phase returns `Ready(Err 5)` but the state is NOT
`Done`, and a further poll produces a second `Ready(Err 5)` outcome —
the invoker is not inert after an error outcome, contradicting the
claimed unconditional transition to the Completed phase and inertness. -/
theorem claim4_counterexample :
    (poll errFutCap (State.Called 0)).out = PollOutcome.ready (Except.error 5) ∧
    isDone (poll errFutCap (State.Called 0)).st = false ∧
    (poll errFutCap (poll errFutCap (State.Called 0)).st).out =
      PollOutcome.ready (Except.error 5) :=
  ⟨rfl, rfl, rfl⟩

/-- C4 (amended): whenever a poll in the `Called` phase observes the call
future resolve, the poll returns `Ready` with that outcome; on a success
value the state transitions to `Done` (after which the invoker is inert:
a further poll panics without producing a result), while on an error the
state remains `Called` with the future as the poll left it. -/
theorem claim4_amended_resolution (C : Capability σ φ Req Resp Err) {f f' : φ}
    {res : Except Err Resp} (h : C.pollFuture f = (Poll.ready res, f')) :
    poll C (State.Called f) =
      ⟨PollOutcome.ready res,
       (match res with
        | Except.ok _ => State.Done
        | Except.error _ => State.Called f'), [Ev.futPolled]⟩ ∧
    poll C (State.Done : State σ φ Req) =
      ⟨PollOutcome.panicked "polled after complete", State.Done, []⟩ := by
  refine ⟨?_, rfl⟩
  cases res <;> simp [poll, pollCalled, h]

/-- C4 witness: the amended statement at `errFutCap`, whose call future
resolves to `Err 5`: the state stays `Called`. -/
theorem claim4_witness :
    poll errFutCap (State.Called 0) =
      ⟨PollOutcome.ready (Except.error 5), State.Called 0, [Ev.futPolled]⟩ ∧
    poll errFutCap (State.Done : State Nat Nat Nat) =
      ⟨PollOutcome.panicked "polled after complete", State.Done, []⟩ :=
  claim4_amended_resolution errFutCap rfl

/-- C5: when the readiness check reports an error, the poll returns
`Ready(Err(error))` with the error passed through unmodified, the request
stays in its slot (`some r` in the resulting state), and `call` is never
invoked (no `callInvoked` event occurs). -/
theorem claim5_readiness_error_short_circuits (C : Capability σ φ Req Resp Err)
    {s s' : σ} {e : Err} (r : Req)
    (h : C.poll_ready s = (Poll.ready (Except.error e), s')) :
    poll C (new s r) =
      ⟨PollOutcome.ready (Except.error e), State.NotReady s' (some r), [Ev.pollReadyErr]⟩ ∧
    List.count Ev.callInvoked (poll C (new s r)).evs = 0 := by
  have hp := poll_notReady_err C (some r) h
  refine ⟨hp, ?_⟩
  rw [show (new s r : State σ φ Req) = State.NotReady s (some r) from rfl, hp]
  rfl

/-- C5 witness: `errReadyCap` with request `9`. -/
theorem claim5_witness :
    poll errReadyCap (new 0 9) =
      ⟨PollOutcome.ready (Except.error 7), State.NotReady 0 (some 9), [Ev.pollReadyErr]⟩ ∧
    List.count Ev.callInvoked (poll errReadyCap (new 0 9)).evs = 0 :=
  claim5_readiness_error_short_circuits errReadyCap 9 rfl

/-- C6: polling a `Oneshot` in the `Done` phase panics with
`"polled after complete"`, performs no events (in particular `call` is
not invoked), and returns no result. -/
theorem claim6_done_poll_panics (C : Capability σ φ Req Resp Err) :
    poll C (State.Done : State σ φ Req) =
      ⟨PollOutcome.panicked "polled after complete", State.Done, []⟩ :=
  rfl

/-- C7: for a service that reports not-ready on its first `n` readiness
polls and then reports ready-and-succeeded, the first `n` polls of the
`Oneshot` each return `Pending` with the phase staying `NotReady` and the
request still in its slot (and no `call`), and over the first `n + 1`
polls `call` is invoked exactly once — on the poll where readiness first
succeeds. -/
theorem claim7_notReady_n_times (C : Capability σ φ Req Resp Err) {s sF sF' : σ}
    (r : Req) (n : Nat) (hp : pendsFor C s n sF)
    (hr : C.poll_ready sF = (Poll.ready (Except.ok ()), sF')) :
    runPolls C n (new s r) =
      ⟨State.NotReady sF (some r), List.replicate n PollOutcome.pending,
       List.replicate n Ev.pollReadyPending⟩ ∧
    List.count Ev.callInvoked (runPolls C (n + 1) (new s r)).evs = 1 := by
  have hpoll := poll_notReady_ok_some C r hr
  have hnp : isPanic (poll C (State.NotReady sF (some r))).out = false := by
    rw [hpoll]
    exact pollCalled_not_panic C _
  constructor
  · have h0 := runPolls_pendsFor C hp 0 (some r)
    rw [show (new s r : State σ φ Req) = State.NotReady s (some r) from rfl]
    simpa [runPolls] using h0
  · have h1 := runPolls_pendsFor C hp 1 (some r)
    rw [show (new s r : State σ φ Req) = State.NotReady s (some r) from rfl]
    rw [show n + 1 = n + 1 from rfl, h1]
    rw [runPolls_succ_ok C 0 (State.NotReady sF (some r)) hnp]
    rw [hpoll]
    simp [runPolls, List.count_append, List.count_cons, pollCalled_evs,
      count_callInvoked_replicate_pending]

/-- C7 witness: `pendCap` from counter `2` reports not-ready twice, then
succeeds; two polls stay `Pending` in `NotReady` with the request held,
and three polls invoke `call` exactly once. -/
theorem claim7_witness :
    runPolls pendCap 2 (new 2 11) =
      ⟨State.NotReady 0 (some 11), List.replicate 2 PollOutcome.pending,
       List.replicate 2 Ev.pollReadyPending⟩ ∧
    List.count Ev.callInvoked (runPolls pendCap 3 (new 2 11)).evs = 1 :=
  claim7_notReady_n_times pendCap 11 2 ⟨rfl, rfl, rfl⟩ rfl

/-- C8: a service that is ready-and-succeeded on its first readiness poll
and whose call future resolves to `Ok v` on its first poll completes in a
single fused poll: the one poll performs the readiness check, the call,
and the future poll, and returns `Ready(Ok v)` with no intermediate
`Pending`. -/
theorem claim8_fused_single_poll (C : Capability σ φ Req Resp Err) {s s' : σ}
    {f' : φ} (r : Req) (v : Resp)
    (h1 : C.poll_ready s = (Poll.ready (Except.ok ()), s'))
    (h2 : C.pollFuture (C.call s' r) = (Poll.ready (Except.ok v), f')) :
    poll C (new s r) =
      ⟨PollOutcome.ready (Except.ok v), State.Done,
       [Ev.pollReadyOk, Ev.callInvoked, Ev.futPolled]⟩ := by
  have hpc : pollCalled C (C.call s' r) =
      ⟨PollOutcome.ready (Except.ok v), State.Done, [Ev.futPolled]⟩ := by
    simp [pollCalled, h2]
  have hpoll := poll_notReady_ok_some C r h1
  rw [hpc] at hpoll
  exact hpoll

/-- C8 witness: `okCap` with request `3` completes in one poll with
`Ready(Ok 4)`. -/
theorem claim8_witness :
    poll okCap (new 0 3) =
      ⟨PollOutcome.ready (Except.ok 4), State.Done,
       [Ev.pollReadyOk, Ev.callInvoked, Ev.futPolled]⟩ :=
  claim8_fused_single_poll okCap 3 4 rfl rfl

/-- C9: polling a `Oneshot` whose phase is `NotReady` but whose request
slot is empty, when readiness succeeds, hits the
`expect("already called")` panic: no `call` is invoked (the only event is
the successful readiness poll) and no result is returned. -/
theorem claim9_empty_slot_panics (C : Capability σ φ Req Resp Err) {s s' : σ}
    (h : C.poll_ready s = (Poll.ready (Except.ok ()), s')) :
    poll C (State.NotReady s none) =
      ⟨PollOutcome.panicked "already called", State.NotReady s' none, [Ev.pollReadyOk]⟩ :=
  poll_notReady_ok_none C h

/-- C9 witness: `okCap` polled in `NotReady` with an empty slot. -/
theorem claim9_witness :
    poll okCap (State.NotReady 0 none) =
      ⟨PollOutcome.panicked "already called", State.NotReady 0 none, [Ev.pollReadyOk]⟩ :=
  claim9_empty_slot_panics okCap rfl

/-- C10: every state reachable from `new svc req` by a sequence of polls
satisfies the request-slot invariant — in the `NotReady` phase the slot
holds `some` value — and consequently a poll from any reachable state
never produces the `expect("already called")` panic: that branch is
unreachable through the public interface. -/
theorem claim10_slot_invariant (C : Capability σ φ Req Resp Err) (s : σ) (r : Req)
    (n : Nat) :
    reqSlotInvB (runPolls C n (new s r)).st = true ∧
    isAlreadyCalled (poll C (runPolls C n (new s r)).st).out = false := by
  have h := (runPolls_inv_auto C n (new s r) (by simp [new, reqSlotInvB])).1
  exact ⟨h, poll_no_already_called C _ h⟩

end Claims

end Oneshot
